import Mathlib

/-!
Shallow embedding of the CI/CD execution engine in src/core/agent.py
(classes PipelineStep, PipelineRun, CICDAgent).

Modelling conventions:
 - Python dicts with a fixed key set become Lean structures; a dict in which
   some keys may be absent becomes a structure with Option fields
   (none = key absent).
 - Python enums StepStatus / PipelineStatus become inductive types; the
   string `.value` of an enum member and the (possibly failing) enum
   constructor StepStatus(s) / PipelineStatus(s) become `value` and
   `ofString` (which returns none where Python raises ValueError).
 - Exceptions that a caller catches become Option results.
 - subprocess.run, time.sleep and datetime.now are effects of the environment; they
   are modelled by an oracle giving the result of each execution attempt
   of a command, a sleep total accumulated in the result, and abstract
   timestamp strings passed in by the caller.
 - Machine integers do not overflow in the relevant ranges; counts and the
   backoff seconds are Nat.
-/

namespace CICD

/-- Per-step status enum (class StepStatus in agent.py). -/
inductive StepStatus
  | pending
  | running
  | success
  | failed
  | skipped
  deriving DecidableEq, Repr

/-- Run-level status enum (class PipelineStatus in agent.py). -/
inductive PipelineStatus
  | pending
  | running
  | success
  | failed
  | cancelled
  deriving DecidableEq, Repr

/-- The `.value` string of a StepStatus member. -/
def StepStatus.value : StepStatus → String
  | StepStatus.pending => "pending"
  | StepStatus.running => "running"
  | StepStatus.success => "success"
  | StepStatus.failed => "failed"
  | StepStatus.skipped => "skipped"

/-- The enum constructor StepStatus(s): none models the ValueError raised
on an unrecognized string. -/
def StepStatus.ofString (s : String) : Option StepStatus :=
  if s = "pending" then some StepStatus.pending
  else if s = "running" then some StepStatus.running
  else if s = "success" then some StepStatus.success
  else if s = "failed" then some StepStatus.failed
  else if s = "skipped" then some StepStatus.skipped
  else none

/-- The `.value` string of a PipelineStatus member. -/
def PipelineStatus.value : PipelineStatus → String
  | PipelineStatus.pending => "pending"
  | PipelineStatus.running => "running"
  | PipelineStatus.success => "success"
  | PipelineStatus.failed => "failed"
  | PipelineStatus.cancelled => "cancelled"

/-- The enum constructor PipelineStatus(s): none models the ValueError
raised on an unrecognized string. -/
def PipelineStatus.ofString (s : String) : Option PipelineStatus :=
  if s = "pending" then some PipelineStatus.pending
  else if s = "running" then some PipelineStatus.running
  else if s = "success" then some PipelineStatus.success
  else if s = "failed" then some PipelineStatus.failed
  else if s = "cancelled" then some PipelineStatus.cancelled
  else none

/-- A step dictionary as consumed by PipelineStep.from_dict and produced by
PipelineStep.to_dict: `name` and `command` are required keys (from_dict
raises KeyError otherwise), every other key may be absent (none). -/
structure StepTemplate where
  name : String
  command : String
  description : Option String := none
  timeout : Option Nat := none
  retry_count : Option Nat := none
  continue_on_error : Option Bool := none
  status : Option String := none
  start_time : Option String := none
  end_time : Option String := none
  output : Option String := none
  error : Option String := none
  deriving DecidableEq, Repr

instance : Inhabited StepTemplate := ⟨{ name := "", command := "" }⟩

/-- Dataclass PipelineStep with its field defaults. -/
structure PipelineStep where
  name : String := ""
  description : String := ""
  command : String := ""
  timeout : Nat := 300
  retry_count : Nat := 0
  continue_on_error : Bool := false
  status : StepStatus := StepStatus.pending
  start_time : String := ""
  end_time : String := ""
  output : String := ""
  error : String := ""
  deriving DecidableEq, Repr

instance : Inhabited PipelineStep := ⟨{}⟩

/-- PipelineStep.from_dict: build a step from the template dict, applying
the .get defaults, then restore any runtime-state key that is present.
Returns none where Python raises (unrecognized status string). -/
def PipelineStep.from_dict (d : StepTemplate) : Option PipelineStep :=
  match d.status with
  | none =>
      some { name := d.name, command := d.command,
             description := d.description.getD "",
             timeout := d.timeout.getD 300,
             retry_count := d.retry_count.getD 0,
             continue_on_error := d.continue_on_error.getD false,
             status := StepStatus.pending,
             start_time := d.start_time.getD "",
             end_time := d.end_time.getD "",
             output := d.output.getD "",
             error := d.error.getD "" }
  | some s =>
      match StepStatus.ofString s with
      | none => none
      | some v =>
          some { name := d.name, command := d.command,
                 description := d.description.getD "",
                 timeout := d.timeout.getD 300,
                 retry_count := d.retry_count.getD 0,
                 continue_on_error := d.continue_on_error.getD false,
                 status := v,
                 start_time := d.start_time.getD "",
                 end_time := d.end_time.getD "",
                 output := d.output.getD "",
                 error := d.error.getD "" }

/-- PipelineStep.to_dict: every key is emitted, status lowered to its
string value. -/
def PipelineStep.to_dict (s : PipelineStep) : StepTemplate :=
  { name := s.name, command := s.command,
    description := some s.description,
    timeout := some s.timeout,
    retry_count := some s.retry_count,
    continue_on_error := some s.continue_on_error,
    status := some s.status.value,
    start_time := some s.start_time,
    end_time := some s.end_time,
    output := some s.output,
    error := some s.error }

/-- Dataclass PipelineRun with its field defaults. Timestamps are abstract
strings; total_duration is an abstract Nat of seconds (the Python float
carries no structure the engine inspects). Variables dicts are association
lists in insertion order, matching Python dict iteration order. -/
structure PipelineRun where
  id : String := ""
  pipeline_id : String := ""
  name : String := ""
  version : String := "1.0.0"
  description : String := ""
  vars : List (String × String) := []
  steps : List PipelineStep := []
  status : PipelineStatus := PipelineStatus.pending
  created_at : String := ""
  started_at : Option String := none
  finished_at : Option String := none
  total_duration : Option Nat := none
  deriving DecidableEq, Repr

instance : Inhabited PipelineRun := ⟨{}⟩

/-- The dictionary form produced by PipelineRun.to_dict and consumed by
PipelineRun.from_dict: every key present, statuses lowered to strings,
steps as a list of step dicts. -/
structure RunDict where
  id : String
  pipeline_id : String
  name : String
  version : String
  description : String
  vars : List (String × String)
  status : String
  created_at : String
  started_at : Option String
  finished_at : Option String
  total_duration : Option Nat
  steps : List StepTemplate
  deriving DecidableEq, Repr

/-- The list comprehension `[f x for x in l]` over a possibly raising f:
none as soon as one element raises, mirroring exception propagation. -/
def mapOpt {α β : Type} (f : α → Option β) : List α → Option (List β)
  | [] => some []
  | a :: l =>
    match f a with
    | none => none
    | some b =>
      match mapOpt f l with
      | none => none
      | some l2 => some (b :: l2)

/-- PipelineRun.to_dict. -/
def PipelineRun.to_dict (r : PipelineRun) : RunDict :=
  { id := r.id, pipeline_id := r.pipeline_id, name := r.name,
    version := r.version, description := r.description,
    vars := r.vars, status := r.status.value,
    created_at := r.created_at, started_at := r.started_at,
    finished_at := r.finished_at, total_duration := r.total_duration,
    steps := r.steps.map PipelineStep.to_dict }

/-- PipelineRun.from_dict: none models the ValueError raised by
PipelineStatus(bad string) or by a bad step status, which the load path
catches. -/
def PipelineRun.from_dict (rd : RunDict) : Option PipelineRun :=
  match PipelineStatus.ofString rd.status with
  | none => none
  | some st =>
    match mapOpt PipelineStep.from_dict rd.steps with
    | none => none
    | some steps =>
      some { id := rd.id, pipeline_id := rd.pipeline_id, name := rd.name,
             version := rd.version, description := rd.description,
             vars := rd.vars, status := st,
             created_at := rd.created_at, started_at := rd.started_at,
             finished_at := rd.finished_at,
             total_duration := rd.total_duration, steps := steps }

/-- A Python value found in the status slot of a run-history record.
`enumVal s` is an enum object whose `.value` is s (hasattr(x, "value") is
true exactly for this form); `strVal`/`intVal`/`noneVal` are plain values
without a `.value` attribute. History is persisted through to_dict, which
yields strVal, but legacy files may hold the other forms. -/
inductive PyStatus
  | enumVal (s : String)
  | strVal (s : String)
  | intVal (n : Int)
  | noneVal
  deriving DecidableEq, Repr

/-- A run-history record: the dict appended by _move_run_to_history, with
the status slot loose enough to hold legacy values (see PyStatus). -/
structure HistEntry where
  id : String := ""
  pipeline_id : String := ""
  name : String := ""
  version : String := "1.0.0"
  description : String := ""
  vars : List (String × String) := []
  status : PyStatus := PyStatus.strVal "pending"
  created_at : String := ""
  started_at : Option String := none
  finished_at : Option String := none
  total_duration : Option Nat := none
  steps : List StepTemplate := []
  deriving DecidableEq, Repr

instance : Inhabited HistEntry := ⟨{}⟩

/-- run.to_dict() as it lands in run_history: status is the enum value
string. -/
def histEntryOf (r : PipelineRun) : HistEntry :=
  { id := r.id, pipeline_id := r.pipeline_id, name := r.name,
    version := r.version, description := r.description,
    vars := r.vars, status := PyStatus.strVal r.status.value,
    created_at := r.created_at, started_at := r.started_at,
    finished_at := r.finished_at, total_duration := r.total_duration,
    steps := r.steps.map PipelineStep.to_dict }

/-- A pipeline configuration object as handed to create_pipeline:
`name` and `steps` required (KeyError otherwise), the rest optional. -/
structure PipelineConfig where
  name : String
  steps : List StepTemplate
  version : Option String := none
  description : Option String := none
  vars : Option (List (String × String)) := none
  deriving DecidableEq, Repr

/-- The pipeline-definition dict built by create_pipeline: all keys
always present, steps stored verbatim from the configuration. -/
structure PipelineDef where
  id : String
  name : String
  version : String
  description : String
  vars : List (String × String)
  steps : List StepTemplate
  created_at : String
  updated_at : String
  deriving DecidableEq, Repr

/-- create_pipeline body: the definition dict it stores. The fresh uuid
and the two datetime.now() calls are abstract inputs. -/
def create_pipeline (conf : PipelineConfig) (pipeline_id now : String) :
    PipelineDef :=
  { id := pipeline_id, name := conf.name,
    version := conf.version.getD "1.0.0",
    description := conf.description.getD "",
    vars := conf.vars.getD [],
    steps := conf.steps,
    created_at := now, updated_at := now }

/-- PipelineRun.from_config on a stored definition dict (which always has
every key, so the .get defaults of from_config never fire): fresh id and
created_at are abstract inputs, status starts at the dataclass default
pending, steps are rebuilt from the stored templates by from_dict. -/
def PipelineRun.from_config (run_id created_at pipeline_id : String)
    (d : PipelineDef) : Option PipelineRun :=
  match mapOpt PipelineStep.from_dict d.steps with
  | none => none
  | some steps =>
    some { id := run_id, pipeline_id := pipeline_id, name := d.name,
           version := d.version, description := d.description,
           vars := d.vars, steps := steps,
           status := PipelineStatus.pending, created_at := created_at,
           started_at := none, finished_at := none,
           total_duration := none }

/-- In-memory engine state: self.pipelines, self.runs, self.run_history
of CICDAgent, as association lists in insertion order. -/
structure AgentState where
  pipelines : List (String × PipelineDef) := []
  runs : List (String × PipelineRun) := []
  run_history : List HistEntry := []
  deriving DecidableEq, Repr

/-- The pickled record written by _save_data: three top-level keys. -/
structure SavedData where
  pipelines : List (String × PipelineDef)
  runs : List (String × RunDict)
  run_history : List HistEntry
  deriving DecidableEq, Repr

/-- _save_data serialization: pipeline dicts shallow-copied (value
identical), runs lowered through to_dict, history stored as-is. The
pickle write itself round-trips values exactly, so the file contents are
this record. -/
def saveData (st : AgentState) : SavedData :=
  { pipelines := st.pipelines,
    runs := st.runs.map (fun kv => (kv.1, kv.2.to_dict)),
    run_history := st.run_history }

/-- _load_data deserialization of an intact file: pipelines taken as-is,
each run rebuilt with PipelineRun.from_dict, history taken as-is. Any
exception (a bad status string) is caught and the engine starts empty. -/
def loadData (d : SavedData) : AgentState :=
  match mapOpt (fun kv =>
      match PipelineRun.from_dict kv.2 with
      | none => none
      | some r => some (kv.1, r)) d.runs with
  | some runs =>
    { pipelines := d.pipelines, runs := runs,
      run_history := d.run_history }
  | none => { pipelines := [], runs := [], run_history := [] }

/-- The status normalization applied by _cleanup_data to one history
record: an object with a .value attribute is lowered to that value, None
becomes "unknown", anything else is left as it is. -/
def cleanupStatus : PyStatus → PyStatus
  | PyStatus.enumVal s => PyStatus.strVal s
  | PyStatus.noneVal => PyStatus.strVal "unknown"
  | st => st

/-- _cleanup_data: rebuild run_history with each record copied and its
status slot normalized; pipelines and live runs untouched. -/
def cleanup_data (st : AgentState) : AgentState :=
  { st with run_history :=
      st.run_history.map (fun e => { e with status := cleanupStatus e.status }) }

/-- The outcome of one subprocess.run invocation of the (substituted)
command, as seen by _execute_step: a zero exit with captured stdout, a
CalledProcessError with captured stderr, a TimeoutExpired, or any other
fault (caught by the outer except with its description). -/
inductive AttemptResult
  | exitZero (stdout : String)
  | exitNonZero (stderr : String)
  | timedOut
  | fault (msg : String)
  deriving DecidableEq, Repr

/-- Result of _execute_step: the mutated step, the returned bool, the
number of subprocess invocations performed and the total seconds passed
to time.sleep across the retry loop. -/
structure ExecResult where
  step : PipelineStep
  ok : Bool
  attempts : Nat
  sleep : Nat
  deriving DecidableEq, Repr

/-- The substitution loop of _execute_step: for each (key, value) in
iteration order replace first every occurrence of the brace form, then of
the bare-dollar form. -/
def substituteVars (vs : List (String × String)) (command : String) : String :=
  vs.foldl
    (fun c kv =>
      ((c.replace ("$\x7b" ++ kv.1 ++ "\x7d") kv.2).replace ("$" ++ kv.1) kv.2))
    command

/-- The retry loop `for attempt in range(step.retry_count + 1)` of
_execute_step, acting on the carried (mutated) step. `att` gives the
outcome of each attempt, `attempt` is the 0-indexed loop counter and the
last argument is the number of loop iterations still available
(retry_count + 1 - attempt at every reachable call). The base case 0 is
the loop running out of iterations, at which the Python function falls
through and returns None (falsy); it is unreachable from executeStep. -/
def attemptLoop (att : Nat → AttemptResult) (now : String) :
    PipelineStep → Nat → Nat → ExecResult
  | s, _, 0 => { step := s, ok := false, attempts := 0, sleep := 0 }
  | s, attempt, remaining + 1 =>
    match att attempt with
    | AttemptResult.exitZero out =>
        { step := { s with output := out,
                           status := StepStatus.success,
                           end_time := now },
          ok := true, attempts := 1, sleep := 0 }
    | AttemptResult.exitNonZero stderr =>
        let s2 := { s with error := stderr }
        if attempt < s2.retry_count then
          let r := attemptLoop att now s2 (attempt + 1) remaining
          { r with attempts := r.attempts + 1, sleep := r.sleep + 2 ^ attempt }
        else
          { step := { s2 with status := StepStatus.failed,
                              end_time := now },
            ok := false, attempts := 1, sleep := 0 }
    | AttemptResult.timedOut =>
        { step := { s with error := "Command timed out after "
                                ++ toString s.timeout ++ " seconds",
                           status := StepStatus.failed,
                           end_time := now },
          ok := false, attempts := 1, sleep := 0 }
    | AttemptResult.fault msg =>
        { step := { s with error := msg,
                           status := StepStatus.failed,
                           end_time := now },
          ok := false, attempts := 1, sleep := 0 }

/-- _execute_step: mark the step running with its start time, substitute
variables into the command, then run the retry loop. `o` maps the
substituted command and the attempt index to the outcome of that attempt. -/
def executeStep (o : String → Nat → AttemptResult) (now : String)
    (vs : List (String × String)) (step : PipelineStep) : ExecResult :=
  let s1 := { step with status := StepStatus.running, start_time := now }
  let command := substituteVars vs s1.command
  attemptLoop (o command) now s1 0 (s1.retry_count + 1)

/-- The step loop of _execute_run, including the for-else: break on a
cancelled status set from outside (steps not yet reached are left
untouched), break with FAILED when a step fails without continue_on_error,
SUCCESS only when the loop exhausts the list. `o` gives each step
(by position) its attempt oracle; `i` is the position of the head. -/
def runStepsFrom (o : Nat → String → Nat → AttemptResult) (now : String)
    (vs : List (String × String)) (status : PipelineStatus) :
    Nat → List PipelineStep → List PipelineStep × PipelineStatus
  | _, [] => ([], PipelineStatus.success)
  | i, step :: rest =>
    if status = PipelineStatus.cancelled then
      (step :: rest, status)
    else
      if (executeStep (o i) now vs step).ok = false ∧
          (executeStep (o i) now vs step).step.continue_on_error = false then
        ((executeStep (o i) now vs step).step :: rest, PipelineStatus.failed)
      else
        ((executeStep (o i) now vs step).step ::
            (runStepsFrom o now vs status (i + 1) rest).1,
         (runStepsFrom o now vs status (i + 1) rest).2)

/-- _execute_run on the run object, sequential semantics (no concurrent
mutation while the loop runs): set status RUNNING and started_at
unconditionally, run the step loop, then record finished_at and
total_duration. Returns the mutated run and the boolean
run.status == SUCCESS. The started/finished timestamps and the measured
duration are abstract inputs. -/
def executeRun (o : Nat → String → Nat → AttemptResult)
    (startedAt finishedAt : String) (dur : Nat) (run : PipelineRun) :
    PipelineRun × Bool :=
  let r1 := { run with status := PipelineStatus.running,
                       started_at := some startedAt }
  let p := runStepsFrom o startedAt r1.vars r1.status 0 r1.steps
  let r2 := { r1 with steps := p.1,
                      status := p.2,
                      finished_at := some finishedAt,
                      total_duration := some dur }
  (r2, decide (r2.status = PipelineStatus.success))

/-- create_pipeline at the registry level: store the definition dict under
the fresh id (persisting is a no-op on in-memory state). -/
def createPipelineOp (st : AgentState) (conf : PipelineConfig)
    (pipeline_id now : String) : AgentState × String :=
  ({ st with pipelines :=
      st.pipelines ++ [(pipeline_id, create_pipeline conf pipeline_id now)] },
   pipeline_id)

/-- create_run: ValueError (none) when the pipeline id is unknown,
otherwise build the run from the stored definition dict and store it in
the live-run map keyed by its fresh id. -/
def create_run (st : AgentState) (pipeline_id run_id created_at : String) :
    Option (AgentState × String) :=
  match st.pipelines.find? (fun kv => kv.1 == pipeline_id) with
  | none => none
  | some kv =>
    match PipelineRun.from_config run_id created_at pipeline_id kv.2 with
    | none => none
    | some run =>
      some ({ st with runs := st.runs ++ [(run.id, run)] }, run.id)

/-- cancel_run: when the run id is live, set that run object status to
CANCELLED and report true; otherwise false. -/
def cancel_run (st : AgentState) (run_id : String) : AgentState × Bool :=
  if (st.runs.find? (fun kv => kv.1 == run_id)).isSome then
    ({ st with runs := st.runs.map (fun kv =>
        if kv.1 == run_id then
          (kv.1, { kv.2 with status := PipelineStatus.cancelled })
        else kv) },
     true)
  else (st, false)

/-- _move_run_to_history: append run.to_dict() to history, then delete
the run id from the live map if present. -/
def moveRunToHistory (st : AgentState) (run : PipelineRun) : AgentState :=
  { st with run_history := st.run_history ++ [histEntryOf run],
            runs := st.runs.filter (fun kv => kv.1 != run.id) }

/-- _execute_run at the registry level: look up the live run (false when
absent), execute it in place, move it to history and report whether it
ended SUCCESS. -/
def executeRunOp (o : Nat → String → Nat → AttemptResult)
    (startedAt finishedAt : String) (dur : Nat) (st : AgentState)
    (run_id : String) : AgentState × Bool :=
  match st.runs.find? (fun kv => kv.1 == run_id) with
  | none => (st, false)
  | some kv =>
    let p := executeRun o startedAt finishedAt dur kv.2
    (moveRunToHistory { st with runs := st.runs.map (fun kv2 =>
        if kv2.1 == run_id then (kv2.1, p.1) else kv2) } p.1,
     p.2)

def oW3 : Nat → String → Nat → AttemptResult := fun i _ _ =>
  if i = 0 then AttemptResult.exitZero "ok" else AttemptResult.exitNonZero "boom"

def runW3 : PipelineRun :=
  { id := "r3",
    steps := [{ name := "a", command := "x" }, { name := "b", command := "y" },
              { name := "c", command := "z" }] }

def oW4f : String → Nat → AttemptResult := fun _ _ => AttemptResult.exitNonZero "e"

def oW4s : String → Nat → AttemptResult := fun _ i =>
  if i = 0 then AttemptResult.exitNonZero "e1" else AttemptResult.exitZero "out"

def sW4f : PipelineStep := { name := "a", command := "c", retry_count := 2 }

def sW4s : PipelineStep := { name := "b", command := "c", retry_count := 5 }

def oW5 : String → Nat → AttemptResult := fun _ _ => AttemptResult.timedOut

def sW5 : PipelineStep := { name := "a", command := "c", timeout := 7,
                            retry_count := 5 }

def oW10 : String → Nat → AttemptResult := fun _ i =>
  if i = 0 then AttemptResult.exitNonZero "bad" else AttemptResult.exitZero "good"

def sW10 : PipelineStep := { name := "a", command := "c", retry_count := 3 }

def pdefW7 : PipelineDef :=
  { id := "p7", name := "p", version := "1.0.0", description := "d",
    vars := [("V", "1")], steps := [{ name := "a", command := "x" }],
    created_at := "c1", updated_at := "c1" }

def runW7 : PipelineRun :=
  { id := "r7", pipeline_id := "p7", name := "p", vars := [("V", "1")],
    steps := [{ name := "a", command := "x", status := StepStatus.running,
                start_time := "s1", output := "o", error := "e" }],
    status := PipelineStatus.running, created_at := "c2",
    started_at := some "s1" }

def histW7 : HistEntry :=
  { id := "r6", pipeline_id := "p7", name := "p",
    status := PyStatus.strVal "success", created_at := "c0",
    started_at := some "s0", finished_at := some "f0",
    total_duration := some 3 }

def stW7 : AgentState :=
  { pipelines := [("p7", pdefW7)], runs := [("r7", runW7)],
    run_history := [histW7] }

def confW9 : PipelineConfig :=
  { name := "p",
    steps := [{ name := "a", command := "x", status := some "success",
                start_time := some "s1", end_time := some "s2",
                output := some "o", error := some "e" },
              { name := "b", command := "y" }] }

def runW9 : PipelineRun :=
  { id := "r9", pipeline_id := "p9", name := "p", vars := [],
    steps := [{ name := "a", command := "x", status := StepStatus.success,
                start_time := "s1", end_time := "s2", output := "o",
                error := "e" },
              { name := "b", command := "y" }],
    created_at := "c9" }

def dBogus : SavedData :=
  { pipelines := [], runs := [],
    run_history := [{ status := PyStatus.strVal "bogus" }] }

def dLegacy : SavedData :=
  { pipelines := [], runs := [],
    run_history := [{ status := PyStatus.noneVal }] }

def runC1 : PipelineRun :=
  { id := "r1", pipeline_id := "p1", name := "p",
    steps := [{ name := "a", command := "true" }], created_at := "t0" }

def stC1 : AgentState := { runs := [("r1", runC1)] }

def oC1 : Nat → String → Nat → AttemptResult :=
  fun _ _ _ => AttemptResult.exitZero ""

end CICD

/-!
Reference-level model for the ownership of the variables dict.

In Python, `pipeline_config.get("variables", ...)` returns the dict object
itself, not a copy. create_pipeline stores that object in the definition
dict, and PipelineRun.from_config stores the definition dict member in
the run. This namespace makes the dict reference explicit: a VarHeap maps
references (allocation indices) to dict contents, and the definition and
run records carry references instead of values.
-/

namespace CICDRef

/-- Heap of variables dicts: cell r holds the contents of dict object r. -/
structure VarHeap where
  cells : List (List (String × String))
  deriving DecidableEq, Repr

/-- Read a dict through its reference. -/
def VarHeap.read (h : VarHeap) (r : Nat) : List (String × String) :=
  (h.cells.get? r).getD []

/-- Mutate a dict in place through its reference. -/
def VarHeap.write (h : VarHeap) (r : Nat) (v : List (String × String)) :
    VarHeap :=
  { cells := h.cells.set r v }

/-- Pipeline-definition dict restricted to the fields relevant to dict
ownership: its stored `variables` member is a reference. -/
structure PipelineDefR where
  name : String
  varsRef : Nat
  deriving DecidableEq, Repr

/-- PipelineRun restricted to the fields relevant to dict ownership. -/
structure PipelineRunR where
  id : String
  varsRef : Nat
  deriving DecidableEq, Repr

/-- PipelineRun.from_config, reference level: the run record stores
`pipeline_config.get("variables", ...)`, i.e. the same dict object held by
the definition (the key is always present in a stored definition, so the
fresh-empty-dict default of .get never fires). -/
def fromConfigR (run_id : String) (d : PipelineDefR) : PipelineRunR :=
  { id := run_id, varsRef := d.varsRef }

def hEx : VarHeap := { cells := [[("V", "1")]] }

def dEx : PipelineDefR := { name := "p", varsRef := 0 }

end CICDRef

namespace CICD

lemma stepStatus_ofString_value (s : StepStatus) :
    StepStatus.ofString s.value = some s := by
  cases s <;> rfl

lemma pipelineStatus_ofString_value (s : PipelineStatus) :
    PipelineStatus.ofString s.value = some s := by
  cases s <;> rfl

lemma step_from_dict_to_dict (s : PipelineStep) :
    PipelineStep.from_dict s.to_dict = some s := by
  cases s
  simp [PipelineStep.to_dict, PipelineStep.from_dict, stepStatus_ofString_value]

lemma mapOpt_roundtrip {α β : Type} (f : α → Option β) (g : β → α)
    (h : ∀ b, f (g b) = some b) : ∀ l : List β, mapOpt f (l.map g) = some l := by
  intro l
  induction l with
  | nil => rfl
  | cons b t ih => simp [mapOpt, h b, ih]

lemma run_from_dict_to_dict (r : PipelineRun) :
    PipelineRun.from_dict r.to_dict = some r := by
  cases r
  simp [PipelineRun.to_dict, PipelineRun.from_dict,
    pipelineStatus_ofString_value,
    mapOpt_roundtrip PipelineStep.from_dict PipelineStep.to_dict
      step_from_dict_to_dict]

lemma loadData_saveData (st : AgentState) : loadData (saveData st) = st := by
  cases st with
  | mk ps rs hist =>
    have hruns : mapOpt (fun kv =>
        match PipelineRun.from_dict kv.2 with
        | none => none
        | some r => some (kv.1, r))
        (rs.map (fun kv => (kv.1, kv.2.to_dict))) = some rs := by
      induction rs with
      | nil => rfl
      | cons kv t ih => simp [mapOpt, run_from_dict_to_dict, ih]
    simp [saveData, loadData, hruns]

end CICD

namespace CICD

lemma sum_range_two_pow (n : Nat) :
    (∑ i ∈ Finset.range n, 2 ^ i) = 2 ^ n - 1 := by
  induction n with
  | zero => rfl
  | succ n ih =>
    rw [Finset.sum_range_succ, ih]
    have h : 1 ≤ 2 ^ n := Nat.one_le_two_pow
    have h2 : (2 : Nat) ^ (n + 1) = 2 ^ n + 2 ^ n := by rw [pow_succ]; omega
    omega

lemma attemptLoop_terminal (att : Nat → AttemptResult) (now : String) :
    ∀ (remaining attempt : Nat) (s : PipelineStep),
    attempt + remaining = s.retry_count + 1 → attempt ≤ s.retry_count →
    (attemptLoop att now s attempt remaining).ok = true ∧
      (attemptLoop att now s attempt remaining).step.status = StepStatus.success ∨
    (attemptLoop att now s attempt remaining).ok = false ∧
      (attemptLoop att now s attempt remaining).step.status = StepStatus.failed := by
  intro remaining
  induction remaining with
  | zero => intro attempt s hsum hle; omega
  | succ n ih =>
    intro attempt s hsum hle
    simp only [attemptLoop]
    cases h : att attempt with
    | exitZero out => simp
    | exitNonZero stderr =>
      by_cases hlt : attempt < ({ s with error := stderr } : PipelineStep).retry_count
      · simp only [hlt, if_true]
        have := ih (attempt + 1) { s with error := stderr } (by simp_all; omega)
          (by simp_all; omega)
        simpa using this
      · simp [hlt]
    | timedOut => simp
    | fault msg => simp

lemma attemptLoop_all_fail (att : Nat → AttemptResult) (now : String)
    (err : Nat → String) :
    ∀ (n a : Nat) (s : PipelineStep), n = s.retry_count - a →
    a ≤ s.retry_count →
    (∀ i, a ≤ i → i ≤ s.retry_count → att i = AttemptResult.exitNonZero (err i)) →
    attemptLoop att now s a (s.retry_count + 1 - a) =
      { step := { s with error := err s.retry_count,
                         status := StepStatus.failed,
                         end_time := now },
        ok := false, attempts := s.retry_count + 1 - a,
        sleep := 2 ^ s.retry_count - 2 ^ a } := by
  intro n
  induction n with
  | zero =>
    intro a s hn ha hfail
    have haeq : a = s.retry_count := by omega
    have hfuel : s.retry_count + 1 - a = 0 + 1 := by omega
    rw [hfuel]
    simp only [attemptLoop]
    rw [hfail a (le_refl a) ha]
    simp only [haeq]
    have hnlt : ¬ s.retry_count <
        ({ s with error := err s.retry_count } : PipelineStep).retry_count := by
      simp
    simp [hnlt, haeq]
  | succ n ih =>
    intro a s hn ha hfail
    have halt : a < s.retry_count := by omega
    have hfuel : s.retry_count + 1 - a = (s.retry_count - a - 1 + 1) + 1 := by
      omega
    rw [hfuel]
    generalize hm : s.retry_count - a - 1 + 1 = m
    simp only [attemptLoop]
    rw [hfail a (le_refl a) ha]
    have hlt : a < ({ s with error := err a } : PipelineStep).retry_count := by
      simpa using halt
    simp only [hlt, if_true]
    have hrec := ih (a + 1) { s with error := err a } (by simp; omega)
      (by simp; omega)
      (fun i h1 h2 => hfail i (by omega) (by simpa using h2))
    have hfuel2 : ({ s with error := err a } : PipelineStep).retry_count + 1 - (a + 1)
        = m := by simp; omega
    rw [hfuel2] at hrec
    rw [hrec]
    have hp1 : (2 : Nat) ^ (a + 1) ≤ 2 ^ s.retry_count :=
      Nat.pow_le_pow_right (by norm_num) (by omega)
    have hp2 : (2 : Nat) ^ (a + 1) = 2 ^ a + 2 ^ a := by rw [pow_succ]; omega
    simp only [ExecResult.mk.injEq, true_and,
      show ({ s with error := err a } : PipelineStep).retry_count
        = s.retry_count from rfl]
    generalize hA : (2 : Nat) ^ s.retry_count = A at hp1 ⊢
    generalize hB : (2 : Nat) ^ (a + 1) = B at hp1 hp2 ⊢
    generalize hC : (2 : Nat) ^ a = C at hp2 ⊢
    omega

lemma attemptLoop_fails_then (att : Nat → AttemptResult) (now : String)
    (err : Nat → String) :
    ∀ (n a j : Nat) (s : PipelineStep) (R : ExecResult), n = j - a →
    a ≤ j → j ≤ s.retry_count →
    (∀ i, a ≤ i → i < j → att i = AttemptResult.exitNonZero (err i)) →
    attemptLoop att now (if a = j then s else { s with error := err (j - 1) })
      j (s.retry_count + 1 - j) = R →
    attemptLoop att now s a (s.retry_count + 1 - a) =
      { step := R.step, ok := R.ok, attempts := R.attempts + (j - a),
        sleep := R.sleep + (2 ^ j - 2 ^ a) } := by
  intro n
  induction n with
  | zero =>
    intro a j s R hn haj hj hfail hR
    have haeq : a = j := by omega
    subst haeq
    rw [if_pos rfl] at hR
    rw [hR]
    simp
  | succ n ih =>
    intro a j s R hn haj hj hfail hR
    have halt : a < j := by omega
    rw [if_neg (by omega)] at hR
    have hfuel : s.retry_count + 1 - a = (s.retry_count - a - 1 + 1) + 1 := by
      omega
    rw [hfuel]
    generalize hm : s.retry_count - a - 1 + 1 = m
    simp only [attemptLoop]
    rw [hfail a (le_refl a) halt]
    have hlt : a < ({ s with error := err a } : PipelineStep).retry_count := by
      simp; omega
    simp only [hlt, if_true]
    have hstep : (if a + 1 = j then ({ s with error := err a } : PipelineStep)
        else { ({ s with error := err a } : PipelineStep) with error := err (j - 1) })
        = ({ s with error := err (j - 1) } : PipelineStep) := by
      by_cases h : a + 1 = j
      · rw [if_pos h]
        have ha1 : a = j - 1 := by omega
        rw [ha1]
      · rw [if_neg h]
    have hR2 : attemptLoop att now
        (if a + 1 = j then ({ s with error := err a } : PipelineStep)
          else { ({ s with error := err a } : PipelineStep) with error := err (j - 1) })
        j (({ s with error := err a } : PipelineStep).retry_count + 1 - j) = R := by
      rw [hstep]
      exact hR
    have hrec := ih (a + 1) j { s with error := err a } R (by omega) (by omega)
      (by simp; omega)
      (fun i h1 h2 => hfail i (by omega) h2)
      hR2
    have hfuel2 : ({ s with error := err a } : PipelineStep).retry_count + 1 - (a + 1)
        = m := by simp; omega
    rw [hfuel2] at hrec
    rw [hrec]
    have hp1 : (2 : Nat) ^ (a + 1) ≤ 2 ^ j :=
      Nat.pow_le_pow_right (by norm_num) (by omega)
    have hp2 : (2 : Nat) ^ (a + 1) = 2 ^ a + 2 ^ a := by rw [pow_succ]; omega
    simp only [ExecResult.mk.injEq, true_and]
    generalize hA : (2 : Nat) ^ j = A at hp1 ⊢
    generalize hB : (2 : Nat) ^ (a + 1) = B at hp1 hp2 ⊢
    generalize hC : (2 : Nat) ^ a = C at hp2 ⊢
    omega

lemma executeStep_eq (o : String → Nat → AttemptResult) (now : String)
    (vs : List (String × String)) (s : PipelineStep) :
    executeStep o now vs s =
      attemptLoop (o (substituteVars vs s.command)) now
        { s with status := StepStatus.running, start_time := now } 0
        (s.retry_count + 1) := rfl

lemma executeStep_terminal (o : String → Nat → AttemptResult) (now : String)
    (vs : List (String × String)) (s : PipelineStep) :
    (executeStep o now vs s).ok = true ∧
      (executeStep o now vs s).step.status = StepStatus.success ∨
    (executeStep o now vs s).ok = false ∧
      (executeStep o now vs s).step.status = StepStatus.failed := by
  rw [executeStep_eq]
  exact attemptLoop_terminal _ now (s.retry_count + 1) 0 _ (by simp) (by simp)

lemma executeStep_all_fail (o : String → Nat → AttemptResult) (now : String)
    (vs : List (String × String)) (s : PipelineStep) (err : Nat → String)
    (hfail : ∀ i, i ≤ s.retry_count →
      o (substituteVars vs s.command) i = AttemptResult.exitNonZero (err i)) :
    executeStep o now vs s =
      { step := { s with status := StepStatus.failed, start_time := now,
                         end_time := now, error := err s.retry_count },
        ok := false, attempts := s.retry_count + 1,
        sleep := 2 ^ s.retry_count - 1 } := by
  rw [executeStep_eq]
  have h := attemptLoop_all_fail (o (substituteVars vs s.command)) now err
    (({ s with status := StepStatus.running, start_time := now } : PipelineStep).retry_count)
    0 { s with status := StepStatus.running, start_time := now } (by simp)
    (by simp)
    (fun i h1 h2 => hfail i (by simpa using h2))
  simpa using h

lemma executeStep_succeeds_at (o : String → Nat → AttemptResult) (now : String)
    (vs : List (String × String)) (s : PipelineStep) (err : Nat → String)
    (out : String) (j : Nat) (hj : j ≤ s.retry_count)
    (hpre : ∀ i, i < j →
      o (substituteVars vs s.command) i = AttemptResult.exitNonZero (err i))
    (hsucc : o (substituteVars vs s.command) j = AttemptResult.exitZero out) :
    executeStep o now vs s =
      { step := { s with status := StepStatus.success, start_time := now,
                         end_time := now, output := out,
                         error := if j = 0 then s.error else err (j - 1) },
        ok := true, attempts := j + 1, sleep := 2 ^ j - 1 } := by
  rw [executeStep_eq]
  by_cases h0 : j = 0
  · subst h0
    simp only [attemptLoop]
    rw [hsucc]
    simp
  · have hfuel : ({ s with status := StepStatus.running, start_time := now }
        : PipelineStep).retry_count + 1 - j = (s.retry_count - j) + 1 := by
      simp; omega
    have hR : attemptLoop (o (substituteVars vs s.command)) now
        (if 0 = j then ({ s with status := StepStatus.running, start_time := now }
            : PipelineStep)
          else { ({ s with status := StepStatus.running, start_time := now }
            : PipelineStep) with error := err (j - 1) })
        j (({ s with status := StepStatus.running, start_time := now }
            : PipelineStep).retry_count + 1 - j) =
        { step := { s with status := StepStatus.success, start_time := now,
                           end_time := now, output := out,
                           error := err (j - 1) },
          ok := true, attempts := 1, sleep := 0 } := by
      rw [if_neg (by omega), hfuel]
      simp only [attemptLoop]
      rw [hsucc]
    have hmain := attemptLoop_fails_then (o (substituteVars vs s.command)) now err
      j 0 j { s with status := StepStatus.running, start_time := now } _
      (by omega) (by omega) (by simpa using hj)
      (fun i h1 h2 => hpre i h2) hR
    rw [show ({ s with status := StepStatus.running, start_time := now }
        : PipelineStep).retry_count + 1 - 0
        = s.retry_count + 1 from by simp] at hmain
    rw [hmain]
    simp only [ExecResult.mk.injEq, true_and]
    refine ⟨by simp [h0], by omega, by simp⟩

lemma executeStep_timeout_at (o : String → Nat → AttemptResult) (now : String)
    (vs : List (String × String)) (s : PipelineStep) (err : Nat → String)
    (j : Nat) (hj : j ≤ s.retry_count)
    (hpre : ∀ i, i < j →
      o (substituteVars vs s.command) i = AttemptResult.exitNonZero (err i))
    (ht : o (substituteVars vs s.command) j = AttemptResult.timedOut) :
    executeStep o now vs s =
      { step := { s with status := StepStatus.failed, start_time := now,
                         end_time := now,
                         error := "Command timed out after "
                           ++ toString s.timeout ++ " seconds" },
        ok := false, attempts := j + 1, sleep := 2 ^ j - 1 } := by
  rw [executeStep_eq]
  by_cases h0 : j = 0
  · subst h0
    simp only [attemptLoop]
    rw [ht]
    simp
  · have hfuel : ({ s with status := StepStatus.running, start_time := now }
        : PipelineStep).retry_count + 1 - j = (s.retry_count - j) + 1 := by
      simp; omega
    have hR : attemptLoop (o (substituteVars vs s.command)) now
        (if 0 = j then ({ s with status := StepStatus.running, start_time := now }
            : PipelineStep)
          else { ({ s with status := StepStatus.running, start_time := now }
            : PipelineStep) with error := err (j - 1) })
        j (({ s with status := StepStatus.running, start_time := now }
            : PipelineStep).retry_count + 1 - j) =
        { step := { s with status := StepStatus.failed, start_time := now,
                           end_time := now,
                           error := "Command timed out after "
                             ++ toString s.timeout ++ " seconds" },
          ok := false, attempts := 1, sleep := 0 } := by
      rw [if_neg (by omega), hfuel]
      simp only [attemptLoop]
      rw [ht]
    have hmain := attemptLoop_fails_then (o (substituteVars vs s.command)) now err
      j 0 j { s with status := StepStatus.running, start_time := now } _
      (by omega) (by omega) (by simpa using hj)
      (fun i h1 h2 => hpre i h2) hR
    rw [show ({ s with status := StepStatus.running, start_time := now }
        : PipelineStep).retry_count + 1 - 0
        = s.retry_count + 1 from by simp] at hmain
    rw [hmain]
    simp only [ExecResult.mk.injEq, true_and]
    refine ⟨by omega, by simp⟩

lemma runStepsFrom_fail (o : Nat → String → Nat → AttemptResult) (now : String)
    (vs : List (String × String)) :
    ∀ (ss : List PipelineStep) (n k : Nat), k < ss.length →
    (∀ i, i < ss.length → i < k →
      (executeStep (o (n + i)) now vs (ss.getD i default)).ok = true ∨
      (executeStep (o (n + i)) now vs (ss.getD i default)).step.continue_on_error
        = true) →
    (executeStep (o (n + k)) now vs (ss.getD k default)).ok = false →
    (executeStep (o (n + k)) now vs (ss.getD k default)).step.continue_on_error
      = false →
    (runStepsFrom o now vs PipelineStatus.running n ss).2 = PipelineStatus.failed ∧
    (runStepsFrom o now vs PipelineStatus.running n ss).1.length = ss.length ∧
    (∀ i, i < k →
      ((runStepsFrom o now vs PipelineStatus.running n ss).1.getD i default).status
          = StepStatus.success ∨
      ((runStepsFrom o now vs PipelineStatus.running n ss).1.getD i default).status
          = StepStatus.failed) ∧
    ((runStepsFrom o now vs PipelineStatus.running n ss).1.getD k default).status
      = StepStatus.failed ∧
    (∀ i, k < i →
      (runStepsFrom o now vs PipelineStatus.running n ss).1.getD i default
        = ss.getD i default) := by
  intro ss
  induction ss with
  | nil => intro n k hk; simp at hk
  | cons s rest ih =>
    intro n k hk hbefore hko hkc
    by_cases hk0 : k = 0
    · subst hk0
      rw [show ((s :: rest).getD 0 default) = s from rfl, Nat.add_zero]
        at hko hkc
      have hrun : runStepsFrom o now vs PipelineStatus.running n (s :: rest)
          = ((executeStep (o n) now vs s).step :: rest, PipelineStatus.failed) := by
        simp only [runStepsFrom]
        rw [if_neg (by decide), if_pos ⟨hko, hkc⟩]
      rw [hrun]
      refine ⟨rfl, by simp, ?_, ?_, ?_⟩
      · intro i hi; omega
      · rcases executeStep_terminal (o n) now vs s with ⟨hok, _⟩ | ⟨_, hst⟩
        · rw [hko] at hok; cases hok
        · simpa using hst
      · intro i hi
        cases i with
        | zero => omega
        | succ i2 => simp
    · obtain ⟨k2, rfl⟩ : ∃ k2, k = k2 + 1 := ⟨k - 1, by omega⟩
      have hb0 := hbefore 0 (by simp) (by omega)
      rw [Nat.add_zero, show ((s :: rest).getD 0 default) = s from rfl] at hb0
      have hcond : ¬((executeStep (o n) now vs s).ok = false ∧
          (executeStep (o n) now vs s).step.continue_on_error = false) := by
        rcases hb0 with h | h <;> simp [h]
      have hrun : runStepsFrom o now vs PipelineStatus.running n (s :: rest)
          = ((executeStep (o n) now vs s).step ::
              (runStepsFrom o now vs PipelineStatus.running (n + 1) rest).1,
             (runStepsFrom o now vs PipelineStatus.running (n + 1) rest).2) := by
        simp only [runStepsFrom]
        rw [if_neg (by decide), if_neg hcond]
      have hx : n + (k2 + 1) = n + 1 + k2 := by omega
      rw [hx, show ((s :: rest).getD (k2 + 1) default) = rest.getD k2 default
        from by simp] at hko hkc
      have hih := ih (n + 1) k2 (by simpa using hk)
        (fun i hi1 hi2 => by
          have hb := hbefore (i + 1) (by simpa using hi1) (by omega)
          have hy : n + (i + 1) = n + 1 + i := by omega
          rw [hy, show ((s :: rest).getD (i + 1) default) = rest.getD i default
            from by simp] at hb
          exact hb)
        hko hkc
      rw [hrun]
      obtain ⟨ihA, ihB, ihC, ihD, ihE⟩ := hih
      refine ⟨ihA, by simpa using ihB, ?_, ?_, ?_⟩
      · intro i hi
        cases i with
        | zero =>
          rcases executeStep_terminal (o n) now vs s with ⟨_, hst⟩ | ⟨_, hst⟩
          · left; simpa using hst
          · right; simpa using hst
        | succ i2 =>
          have := ihC i2 (by omega)
          simpa using this
      · simpa using ihD
      · intro i hi
        cases i with
        | zero => omega
        | succ i2 =>
          have := ihE i2 (by omega)
          simpa using this

lemma mapOpt_length_getD {α β : Type} (f : α → Option β) :
    ∀ (l : List α) (out : List β), mapOpt f l = some out →
    out.length = l.length ∧
    ∀ (i : Nat) (dA : α) (dB : β), i < l.length →
      f (l.getD i dA) = some (out.getD i dB) := by
  intro l
  induction l with
  | nil =>
    intro out h
    simp [mapOpt] at h
    subst h
    exact ⟨rfl, fun i dA dB hi => by simp at hi⟩
  | cons a t ih =>
    intro out h
    cases hfa : f a with
    | none => simp [mapOpt, hfa] at h
    | some b =>
      cases hmt : mapOpt f t with
      | none => simp [mapOpt, hfa, hmt] at h
      | some t2 =>
        simp [mapOpt, hfa, hmt] at h
        subst h
        obtain ⟨hlen, hget⟩ := ih t2 hmt
        refine ⟨by simp [hlen], ?_⟩
        intro i dA dB hi
        cases i with
        | zero => simpa using hfa
        | succ i2 =>
          have := hget i2 dA dB (by simpa using hi)
          simpa using this

lemma loadData_history (d : SavedData) :
    (loadData d).run_history = d.run_history ∨ (loadData d).run_history = [] := by
  unfold loadData
  cases h : mapOpt (fun kv =>
      match PipelineRun.from_dict kv.2 with
      | none => none
      | some r => some (kv.1, r)) d.runs with
  | none => right; rfl
  | some runs => left; rfl

end CICD

namespace CICDRef

lemma list_get_set {α : Type} :
    ∀ (l : List α) (r : Nat) (v : α), r < l.length →
    (l.set r v).get? r = some v := by
  intro l
  induction l with
  | nil => intro r v h; simp at h
  | cons a t ih =>
    intro r v h
    cases r with
    | zero => rfl
    | succ r2 =>
      have := ih r2 v (by simpa using h)
      simpa using this

end CICDRef

namespace CICD

lemma executeRun_eq (o : Nat → String → Nat → AttemptResult)
    (ns ne : String) (dur : Nat) (run : PipelineRun) :
    executeRun o ns ne dur run =
      ({ run with
          status := (runStepsFrom o ns run.vars PipelineStatus.running 0 run.steps).2,
          started_at := some ns,
          steps := (runStepsFrom o ns run.vars PipelineStatus.running 0 run.steps).1,
          finished_at := some ne,
          total_duration := some dur },
       decide ((runStepsFrom o ns run.vars PipelineStatus.running 0 run.steps).2
         = PipelineStatus.success)) := rfl

/-- C3: in a run whose steps all start pending past position k, where every
step before k either succeeds or fails with continue_on_error set, and step
k fails without continue_on_error, the Run Executor ends the run with
status failed, leaves every step before k in a terminal status (success or
failed), marks step k failed, and leaves every step after k pending. -/
theorem run_fail_stops (o : Nat → String → Nat → AttemptResult)
    (ns ne : String) (dur : Nat) (run : PipelineRun) (k : Nat)
    (hk : k < run.steps.length)
    (hafter : ∀ i, i < run.steps.length → k < i →
      (run.steps.getD i default).status = StepStatus.pending)
    (hbefore : ∀ i, i < run.steps.length → i < k →
      (executeStep (o i) ns run.vars (run.steps.getD i default)).ok = true ∨
      (executeStep (o i) ns run.vars
        (run.steps.getD i default)).step.continue_on_error = true)
    (hko : (executeStep (o k) ns run.vars (run.steps.getD k default)).ok = false)
    (hkc : (executeStep (o k) ns run.vars
      (run.steps.getD k default)).step.continue_on_error = false) :
    (executeRun o ns ne dur run).1.status = PipelineStatus.failed ∧
    (executeRun o ns ne dur run).1.steps.length = run.steps.length ∧
    (∀ i, i < k →
      ((executeRun o ns ne dur run).1.steps.getD i default).status
          = StepStatus.success ∨
      ((executeRun o ns ne dur run).1.steps.getD i default).status
          = StepStatus.failed) ∧
    ((executeRun o ns ne dur run).1.steps.getD k default).status
      = StepStatus.failed ∧
    (∀ i, i < run.steps.length → k < i →
      ((executeRun o ns ne dur run).1.steps.getD i default).status
        = StepStatus.pending) := by
  obtain ⟨hA, hB, hC, hD, hE⟩ := runStepsFrom_fail o ns run.vars run.steps 0 k hk
    (fun i h1 h2 => by simpa using hbefore i h1 h2)
    (by simpa using hko) (by simpa using hkc)
  refine ⟨by simpa [executeRun_eq] using hA,
    by simpa [executeRun_eq] using hB,
    fun i hi => by simpa [executeRun_eq] using hC i hi,
    by simpa [executeRun_eq] using hD,
    fun i hi1 hi2 => by
      have h2 := hafter i hi1 hi2
      have h3 := hE i hi2
      simp only [executeRun_eq]
      rw [h3]
      exact h2⟩

end CICD

namespace CICD

/-- C3 witness: a three-step run whose second step always fails ends
failed, with step a terminal, step b failed and step c still pending. -/
theorem run_fail_stops_witness :
    (executeRun oW3 "t1" "t2" 0 runW3).1.status = PipelineStatus.failed ∧
    (((executeRun oW3 "t1" "t2" 0 runW3).1.steps.getD 0 default).status
        = StepStatus.success ∨
      ((executeRun oW3 "t1" "t2" 0 runW3).1.steps.getD 0 default).status
        = StepStatus.failed) ∧
    ((executeRun oW3 "t1" "t2" 0 runW3).1.steps.getD 1 default).status
      = StepStatus.failed ∧
    ((executeRun oW3 "t1" "t2" 0 runW3).1.steps.getD 2 default).status
      = StepStatus.pending := by
  have h := run_fail_stops oW3 "t1" "t2" 0 runW3 1 (by decide) (by decide)
    (by decide) (by decide) (by decide)
  exact ⟨h.1, h.2.2.1 0 (by decide), h.2.2.2.1,
    h.2.2.2.2 2 (by decide) (by decide)⟩

end CICD

namespace CICD

/-- C4: a step whose command exits non-zero on every attempt is executed
exactly retry_count + 1 times, with a cumulative backoff sleep of
2^0 + ... + 2^(R-1) seconds, ending failed with a false return; and a
step whose first j attempts fail and whose attempt j exits zero returns
true with exactly j + 1 attempts. -/
theorem retry_attempts_backoff (o o2 : String → Nat → AttemptResult)
    (now now2 : String) (vs vs2 : List (String × String))
    (s s2 : PipelineStep) (err err2 : Nat → String) (out : String) (j : Nat)
    (hfail : ∀ i, i ≤ s.retry_count →
      o (substituteVars vs s.command) i = AttemptResult.exitNonZero (err i))
    (hj : j ≤ s2.retry_count)
    (hpre : ∀ i, i < j →
      o2 (substituteVars vs2 s2.command) i = AttemptResult.exitNonZero (err2 i))
    (hzero : o2 (substituteVars vs2 s2.command) j = AttemptResult.exitZero out) :
    ((executeStep o now vs s).attempts = s.retry_count + 1 ∧
     (executeStep o now vs s).sleep = ∑ i ∈ Finset.range s.retry_count, 2 ^ i ∧
     (executeStep o now vs s).ok = false ∧
     (executeStep o now vs s).step.status = StepStatus.failed) ∧
    ((executeStep o2 now2 vs2 s2).ok = true ∧
     (executeStep o2 now2 vs2 s2).attempts = j + 1) := by
  constructor
  · rw [executeStep_all_fail o now vs s err hfail]
    refine ⟨rfl, ?_, rfl, rfl⟩
    simp [sum_range_two_pow]
  · rw [executeStep_succeeds_at o2 now2 vs2 s2 err2 out j hj hpre hzero]
    exact ⟨rfl, rfl⟩

/-- C4 witness: retry_count 2 with every attempt failing gives 3 attempts
and 3 seconds of backoff; one failure then success gives 2 attempts. -/
theorem retry_attempts_backoff_witness :
    (executeStep oW4f "t" [] sW4f).attempts = 3 ∧
    (executeStep oW4f "t" [] sW4f).sleep = 3 ∧
    (executeStep oW4f "t" [] sW4f).ok = false ∧
    (executeStep oW4s "t" [] sW4s).ok = true ∧
    (executeStep oW4s "t" [] sW4s).attempts = 2 := by
  have h := retry_attempts_backoff oW4f oW4s "t" "t" [] [] sW4f sW4s
    (fun _ => "e") (fun _ => "e1") "out" 1 (by decide) (by decide) (by decide)
    (by decide)
  refine ⟨h.1.1, ?_, h.1.2.2.1, h.2.1, h.2.2⟩
  rw [h.1.2.1]
  decide

/-- C5: an attempt that exceeds the configured timeout makes the Step
Executor record the timeout message naming the configured timeout, set
status failed and end_time, and return false without any further attempt,
however much retry budget remains. -/
theorem timeout_stops_step (o : String → Nat → AttemptResult) (now : String)
    (vs : List (String × String)) (s : PipelineStep) (err : Nat → String)
    (j : Nat) (hj : j ≤ s.retry_count)
    (hpre : ∀ i, i < j →
      o (substituteVars vs s.command) i = AttemptResult.exitNonZero (err i))
    (ht : o (substituteVars vs s.command) j = AttemptResult.timedOut) :
    (executeStep o now vs s).ok = false ∧
    (executeStep o now vs s).attempts = j + 1 ∧
    (executeStep o now vs s).step.error =
      "Command timed out after " ++ toString s.timeout ++ " seconds" ∧
    (executeStep o now vs s).step.status = StepStatus.failed ∧
    (executeStep o now vs s).step.end_time = now := by
  rw [executeStep_timeout_at o now vs s err j hj hpre ht]
  exact ⟨rfl, rfl, rfl, rfl, rfl⟩

/-- C5 witness: with 5 retries still available, the first attempt timing
out ends the step at once with the timeout message for 7 seconds. -/
theorem timeout_stops_step_witness :
    (executeStep oW5 "t" [] sW5).ok = false ∧
    (executeStep oW5 "t" [] sW5).attempts = 1 ∧
    (executeStep oW5 "t" [] sW5).step.error
      = "Command timed out after 7 seconds" ∧
    (executeStep oW5 "t" [] sW5).step.status = StepStatus.failed ∧
    (executeStep oW5 "t" [] sW5).step.end_time = "t" := by
  have h := timeout_stops_step oW5 "t" [] sW5 (fun _ => "") 0 (by decide)
    (by decide) (by decide)
  refine ⟨h.1, h.2.1, ?_, h.2.2.2.1, h.2.2.2.2⟩
  rw [h.2.2.1]
  decide

/-- C10: a step that fails at least once and then succeeds on a retry
returns true with status success and the successful stdout, while the
error field still holds the stderr of the last failed attempt. -/
theorem error_kept_after_retry_success (o : String → Nat → AttemptResult)
    (now : String) (vs : List (String × String)) (s : PipelineStep)
    (err : Nat → String) (out : String) (j : Nat)
    (hj1 : 1 ≤ j) (hj : j ≤ s.retry_count)
    (hpre : ∀ i, i < j →
      o (substituteVars vs s.command) i = AttemptResult.exitNonZero (err i))
    (hzero : o (substituteVars vs s.command) j = AttemptResult.exitZero out) :
    (executeStep o now vs s).ok = true ∧
    (executeStep o now vs s).step.status = StepStatus.success ∧
    (executeStep o now vs s).step.output = out ∧
    (executeStep o now vs s).step.error = err (j - 1) := by
  rw [executeStep_succeeds_at o now vs s err out j hj hpre hzero]
  refine ⟨rfl, rfl, rfl, ?_⟩
  simp [show j ≠ 0 from by omega]

/-- C10 witness: fail once with stderr bad, succeed with stdout good; the
step ends success with output good and error still bad. -/
theorem error_kept_after_retry_success_witness :
    (executeStep oW10 "t" [] sW10).ok = true ∧
    (executeStep oW10 "t" [] sW10).step.status = StepStatus.success ∧
    (executeStep oW10 "t" [] sW10).step.output = "good" ∧
    (executeStep oW10 "t" [] sW10).step.error = "bad" := by
  have h := error_kept_after_retry_success oW10 "t" [] sW10 (fun _ => "bad")
    "good" 1 (by decide) (by decide) (by decide) (by decide)
  exact ⟨h.1, h.2.1, h.2.2.1, h.2.2.2⟩

end CICD

namespace CICD

/-- C7: saving an engine state holding at least one pipeline definition,
one live run and one historical run and loading it back yields
field-for-field identical data, including step statuses and timestamps. -/
theorem save_load_roundtrip (st : AgentState)
    (h1 : st.pipelines ≠ []) (h2 : st.runs ≠ []) (h3 : st.run_history ≠ []) :
    loadData (saveData st) = st :=
  loadData_saveData st

/-- C7 witness: a concrete state with one definition, one live run and one
history record survives the save and load round trip unchanged. -/
theorem save_load_roundtrip_witness :
    stW7.pipelines ≠ [] ∧ stW7.runs ≠ [] ∧ stW7.run_history ≠ [] ∧
    loadData (saveData stW7) = stW7 :=
  ⟨by decide, by decide, by decide,
   save_load_roundtrip stW7 (by decide) (by decide) (by decide)⟩

end CICD

namespace CICD

lemma PipelineStep.from_dict_status_none (d : StepTemplate) (s : PipelineStep)
    (hd : d.status = none) (hs : PipelineStep.from_dict d = some s) :
    s.status = StepStatus.pending ∧ s.start_time = d.start_time.getD "" ∧
    s.end_time = d.end_time.getD "" ∧ s.output = d.output.getD "" ∧
    s.error = d.error.getD "" := by
  simp only [PipelineStep.from_dict, hd, Option.some.injEq] at hs
  subst hs
  exact ⟨rfl, rfl, rfl, rfl, rfl⟩

lemma PipelineStep.from_dict_status_some (d : StepTemplate) (sv : String)
    (v : StepStatus) (s : PipelineStep) (hd : d.status = some sv)
    (hv : StepStatus.ofString sv = some v)
    (hs : PipelineStep.from_dict d = some s) :
    s.status = v ∧ s.start_time = d.start_time.getD "" ∧
    s.end_time = d.end_time.getD "" ∧ s.output = d.output.getD "" ∧
    s.error = d.error.getD "" := by
  simp only [PipelineStep.from_dict, hd, hv, Option.some.injEq] at hs
  subst hs
  exact ⟨rfl, rfl, rfl, rfl, rfl⟩

lemma PipelineStep.from_dict_bad (d : StepTemplate) (sv : String)
    (hd : d.status = some sv) (hv : StepStatus.ofString sv = none) :
    PipelineStep.from_dict d = none := by
  simp only [PipelineStep.from_dict, hd, hv]

/-- C9: a run created from a stored pipeline definition starts with a step
carrying any runtime-state values (status, start_time, end_time, output,
error) present in that step template, and starts pending with empty
runtime fields exactly when the template carries none of those keys. -/
theorem template_runtime_state_injected (conf : PipelineConfig)
    (pid now rid cat : String) (run : PipelineRun) (i : Nat)
    (hrun : PipelineRun.from_config rid cat pid (create_pipeline conf pid now)
      = some run)
    (hi : i < conf.steps.length) :
    (∀ sv v, (conf.steps.getD i default).status = some sv →
      StepStatus.ofString sv = some v →
      (run.steps.getD i default).status = v) ∧
    (∀ x, (conf.steps.getD i default).start_time = some x →
      (run.steps.getD i default).start_time = x) ∧
    (∀ x, (conf.steps.getD i default).end_time = some x →
      (run.steps.getD i default).end_time = x) ∧
    (∀ x, (conf.steps.getD i default).output = some x →
      (run.steps.getD i default).output = x) ∧
    (∀ x, (conf.steps.getD i default).error = some x →
      (run.steps.getD i default).error = x) ∧
    ((conf.steps.getD i default).status = none ∧
     (conf.steps.getD i default).start_time = none ∧
     (conf.steps.getD i default).end_time = none ∧
     (conf.steps.getD i default).output = none ∧
     (conf.steps.getD i default).error = none →
      (run.steps.getD i default).status = StepStatus.pending ∧
      (run.steps.getD i default).start_time = "" ∧
      (run.steps.getD i default).end_time = "" ∧
      (run.steps.getD i default).output = "" ∧
      (run.steps.getD i default).error = "") := by
  unfold PipelineRun.from_config at hrun
  rw [show (create_pipeline conf pid now).steps = conf.steps from rfl] at hrun
  cases hms : mapOpt PipelineStep.from_dict conf.steps with
  | none => rw [hms] at hrun; cases hrun
  | some steps =>
    rw [hms] at hrun
    have hrs : run.steps = steps := by
      cases hrun
      rfl
    obtain ⟨hlen, hget⟩ := mapOpt_length_getD PipelineStep.from_dict conf.steps
      steps hms
    have hfd : PipelineStep.from_dict (conf.steps.getD i default)
        = some (run.steps.getD i default) := by
      rw [hrs]
      exact hget i default default hi
    have hrt :
        (run.steps.getD i default).start_time
          = (conf.steps.getD i default).start_time.getD "" ∧
        (run.steps.getD i default).end_time
          = (conf.steps.getD i default).end_time.getD "" ∧
        (run.steps.getD i default).output
          = (conf.steps.getD i default).output.getD "" ∧
        (run.steps.getD i default).error
          = (conf.steps.getD i default).error.getD "" := by
      cases hst : (conf.steps.getD i default).status with
      | none =>
        obtain ⟨-, h1, h2, h3, h4⟩ :=
          PipelineStep.from_dict_status_none _ _ hst hfd
        exact ⟨h1, h2, h3, h4⟩
      | some sv0 =>
        cases hof : StepStatus.ofString sv0 with
        | none => rw [PipelineStep.from_dict_bad _ sv0 hst hof] at hfd; cases hfd
        | some v0 =>
          obtain ⟨-, h1, h2, h3, h4⟩ :=
            PipelineStep.from_dict_status_some _ sv0 v0 _ hst hof hfd
          exact ⟨h1, h2, h3, h4⟩
    refine ⟨?_, ?_, ?_, ?_, ?_, ?_⟩
    · intro sv v hsv hv
      exact (PipelineStep.from_dict_status_some _ sv v _ hsv hv hfd).1
    · intro x hx; rw [hrt.1, hx]; rfl
    · intro x hx; rw [hrt.2.1, hx]; rfl
    · intro x hx; rw [hrt.2.2.1, hx]; rfl
    · intro x hx; rw [hrt.2.2.2, hx]; rfl
    · intro hall
      obtain ⟨h0, h1, h2, h3, h4⟩ := hall
      have hsnone := PipelineStep.from_dict_status_none _ _ h0 hfd
      exact ⟨hsnone.1, by rw [hrt.1, h1]; rfl, by rw [hrt.2.1, h2]; rfl,
        by rw [hrt.2.2.1, h3]; rfl, by rw [hrt.2.2.2, h4]; rfl⟩

end CICD

namespace CICD

/-- C9 witness: a stored template carrying runtime keys yields a run step
already marked success with those values, while a clean template yields a
pending step with empty runtime fields. -/
theorem template_runtime_state_injected_witness :
    (runW9.steps.getD 0 default).status = StepStatus.success ∧
    (runW9.steps.getD 0 default).output = "o" ∧
    (runW9.steps.getD 1 default).status = StepStatus.pending ∧
    (runW9.steps.getD 1 default).error = "" := by
  have h0 := template_runtime_state_injected confW9 "p9" "n9" "r9" "c9" runW9 0
    (by decide) (by decide)
  have h1 := template_runtime_state_injected confW9 "p9" "n9" "r9" "c9" runW9 1
    (by decide) (by decide)
  have hclean := h1.2.2.2.2.2 ⟨rfl, rfl, rfl, rfl, rfl⟩
  exact ⟨h0.1 "success" StepStatus.success rfl rfl, h0.2.2.2.1 "o" rfl,
    hclean.1, hclean.2.2.2.2⟩

end CICD

namespace CICD

/-- C6 counterexample: a loaded history record whose status is the
unrecognized string "bogus" survives the post-load cleanup unchanged; it
is neither a recognized status string nor the "unknown" sentinel, refuting
the claim that every surviving status is recognized or "unknown". -/
theorem cleanup_keeps_bogus_status :
    ((cleanup_data (loadData dBogus)).run_history.getD 0 default).status
      = PyStatus.strVal "bogus" ∧
    (∀ st : PipelineStatus, PipelineStatus.value st ≠ "bogus") ∧
    (∀ st : StepStatus, StepStatus.value st ≠ "bogus") ∧
    ("bogus" : String) ≠ "unknown" := by
  refine ⟨rfl, ?_, ?_, by decide⟩
  · intro st; cases st <;> decide
  · intro st; cases st <;> decide

/-- C6 amended: the post-load cleanup eliminates exactly the two
repairable status forms from history records: objects carrying a .value
attribute are lowered to that string and None becomes "unknown"; any
other malformed value (such as an unrecognized string or a non-string)
survives unchanged, so after cleanup no record status is an enum object
or None, but unrecognized values may remain. -/
theorem cleanup_no_enum_or_none (d : SavedData) (e : HistEntry)
    (he : e ∈ (cleanup_data (loadData d)).run_history) :
    (∀ sv, e.status ≠ PyStatus.enumVal sv) ∧ e.status ≠ PyStatus.noneVal := by
  unfold cleanup_data at he
  simp only [List.mem_map] at he
  obtain ⟨e2, _, heq⟩ := he
  subst heq
  cases h2 : e2.status <;> simp [cleanupStatus, h2]

/-- C6 amended witness: a record whose status was None is, after cleanup,
the "unknown" sentinel, which is neither an enum object nor None. -/
theorem cleanup_no_enum_or_none_witness :
    (∀ sv, ({ status := PyStatus.strVal "unknown" } : HistEntry).status
      ≠ PyStatus.enumVal sv) ∧
    ({ status := PyStatus.strVal "unknown" } : HistEntry).status
      ≠ PyStatus.noneVal :=
  cleanup_no_enum_or_none dLegacy { status := PyStatus.strVal "unknown" }
    (by decide)

end CICD

namespace CICDRef

/-- C2 counterexample: after createRun, mutating the variables dict
through the definition is visible through the run, refuting the claim
that a change to the definition variables leaves the run variables
unchanged. -/
theorem run_vars_not_copied :
    ¬ (VarHeap.read (VarHeap.write hEx dEx.varsRef [("V", "2")])
        (fromConfigR "r1" dEx).varsRef
      = VarHeap.read hEx (fromConfigR "r1" dEx).varsRef) := by
  decide

/-- C2 amended: createRun rebuilds the step objects but stores the
definition variables dict by reference: the run, the definition and every
run created from that definition share one dict, so a write through the
definition reference is read back through the run reference. -/
theorem run_vars_shared_with_definition (d : PipelineDefR)
    (rid rid2 : String) (h : VarHeap) (v : List (String × String))
    (hlt : d.varsRef < h.cells.length) :
    (fromConfigR rid d).varsRef = d.varsRef ∧
    (fromConfigR rid2 d).varsRef = (fromConfigR rid d).varsRef ∧
    VarHeap.read (VarHeap.write h d.varsRef v) (fromConfigR rid d).varsRef
      = v := by
  refine ⟨rfl, rfl, ?_⟩
  unfold VarHeap.read VarHeap.write fromConfigR
  rw [list_get_set h.cells d.varsRef v hlt]
  rfl

/-- C2 amended witness: sharing observed on a one-cell heap. -/
theorem run_vars_shared_with_definition_witness :
    (fromConfigR "r1" dEx).varsRef = dEx.varsRef ∧
    (fromConfigR "r2" dEx).varsRef = (fromConfigR "r1" dEx).varsRef ∧
    VarHeap.read (VarHeap.write hEx dEx.varsRef [("V", "2")])
      (fromConfigR "r1" dEx).varsRef = [("V", "2")] :=
  run_vars_shared_with_definition dEx "r1" "r2" hEx [("V", "2")] (by decide)

end CICDRef

namespace CICD

/-- C1: evaluation of the failing scenario: cancel_run marks the pending
run cancelled, yet the Run Executor subsequently started on that run
overwrites the terminal cancelled status with running and drives the run
to success, moving it to history as a successful run — terminal states
are not absorbing in the code. -/
theorem cancelled_run_reexecuted :
    ((cancel_run stC1 "r1").1.runs.map (fun kv => kv.2.status))
        = [PipelineStatus.cancelled] ∧
    (executeRunOp oC1 "t1" "t2" 0 (cancel_run stC1 "r1").1 "r1").2 = true ∧
    ((executeRunOp oC1 "t1" "t2" 0 (cancel_run stC1 "r1").1 "r1").1.run_history.map
        (fun e => e.status)) = [PyStatus.strVal "success"] ∧
    (executeRunOp oC1 "t1" "t2" 0 (cancel_run stC1 "r1").1 "r1").1.runs = [] := by
  refine ⟨rfl, rfl, rfl, rfl⟩

end CICD
